import Mathlib

/-
Shallow embedding of the rucaptcha image-synthesis core
(src/ext/rucaptcha/src/captcha.rs).

Modelling conventions:
- The thread-local RNG is modelled as an explicit stream `RngStream = Nat → Nat`
  of raw draws; `rand_num len` (Rust `rng.gen_range(0..=len)`) reduces the next
  raw draw modulo `len + 1`, so its result ranges over the inclusive interval
  `[0, len]` exactly as in the source, and advances the stream by one.
- Rust `usize`/`u32` arithmetic is modelled on `Nat`; all quantities involved
  are far below any machine bound for reachable configurations (canvas is
  220 x 70 and not settable through the builder).
- The float arithmetic in the source only ever holds exact small integers
  (coordinates, scales); `(scale * 0.2) as usize` is modelled as
  `scale * 2 / 10`, which agrees with the f32 truncation at every reachable
  value (32, 45, 55 for scales and 70 for the height).
- Drawing calls into the external `imageproc` crate are observed as a list of
  `DrawEvent`s recording each call and its arguments; pixel-level effects of
  the external crate are outside the program text.
- A Rust panic (integer division by zero when the captcha string is empty) is
  modelled as `Option.none`.
-/

namespace Rucaptcha

/-- RGBA color, as in `image::Rgba<u8>`. -/
structure Rgba where
  r : Nat
  g : Nat
  b : Nat
  a : Nat
deriving DecidableEq

/-- The 54-character alphabet `BASIC_CHAR` from the source. -/
def BASIC_CHAR : List Char :=
  ['2', '3', '4', '5', '6', '7', '8', '9', 'A', 'B', 'C', 'D', 'E', 'F', 'G', 'H', 'J', 'K', 'M',
   'N', 'P', 'Q', 'R', 'S', 'T', 'U', 'V', 'W', 'X', 'Y', 'Z', 'a', 'b', 'c', 'd', 'e', 'f', 'g',
   'h', 'j', 'k', 'm', 'n', 'p', 'q', 'r', 's', 't', 'u', 'v', 'w', 'x', 'y', 'z']

/-- The 14-color palette `COLORS` from the source. -/
def COLORS : List Rgba :=
  [⟨197, 166, 3, 255⟩, ⟨187, 87, 5, 255⟩, ⟨176, 7, 7, 255⟩, ⟨186, 9, 56, 255⟩,
   ⟨204, 11, 143, 255⟩, ⟨124, 10, 190, 255⟩, ⟨87, 0, 200, 255⟩, ⟨61, 86, 168, 255⟩,
   ⟨63, 166, 126, 255⟩, ⟨69, 187, 48, 255⟩, ⟨105, 208, 3, 255⟩, ⟨160, 208, 3, 255⟩,
   ⟨216, 219, 2, 255⟩, ⟨50, 50, 50, 255⟩]

def SCALE_SM : Nat := 32

def SCALE_MD : Nat := 45

def SCALE_LG : Nat := 55

/-- Raw entropy stream standing for the thread-local RNG. -/
abbrev RngStream := Nat → Nat

/-- Rust `rand_num(len)` = `rng.gen_range(0..=len)`: one draw in the inclusive
range `[0, len]`, advancing the stream. -/
def rand_num (len : Nat) (s : RngStream) : Nat × RngStream :=
  (s 0 % (len + 1), fun i => s (i + 1))

/-- Rust `rand_captcha(len)`: push `len` characters drawn from `BASIC_CHAR`
at index `rand_num(BASIC_CHAR.len() - 1)`. -/
def rand_captcha : Nat → RngStream → List Char × RngStream
  | 0, s => ([], s)
  | n + 1, s =>
    let p := rand_num (BASIC_CHAR.length - 1) s
    let q := rand_captcha n p.2
    (BASIC_CHAR.getD p.1 '2' :: q.1, q.2)

/-- The loop body of `get_colors`: for `i in i0..(i0+n)` push
`COLORS[(rnd + i) % COLORS.len()]`. -/
def color_loop (rnd : Nat) : Nat → Nat → List Rgba
  | _, 0 => []
  | i, n + 1 => COLORS.getD ((rnd + i) % COLORS.length) ⟨0, 0, 0, 0⟩ :: color_loop rnd (i + 1) n

/-- Rust `get_colors(len)`: one rotation offset `rand_num(COLORS.len())`
(inclusive upper bound `14`), then `len` palette colors cycled from it. -/
def get_colors (len : Nat) (s : RngStream) : List Rgba × RngStream :=
  let p := rand_num COLORS.length s
  (color_loop p.1 0 len, p.2)

/-- Rust `get_next(min, max)` = `min + rand_num(max - min)` (the f32 values
involved are exact integers). -/
def get_next (min : Nat) (max : Nat) (s : RngStream) : Nat × RngStream :=
  let p := rand_num (max - min) s
  (min + p.1, p.2)

/-- One call into the external `imageproc` drawing layer, with its arguments. -/
inductive DrawEvent where
  | line (x1 y1 x2 y2 cx cy cx2 cy2 : Nat) (color : Rgba)
  | ellipse (x y w : Nat) (color : Rgba)
  | text (x y sx sy fontIdx : Nat) (ch : Char) (color : Rgba)
deriving DecidableEq

/-- Rust `draw_interference_line(num, image, color)`: `num` cubic bezier
strokes, each consuming six draws for its random coordinates. -/
def draw_interference_line : Nat → Nat → Nat → Rgba → RngStream → List DrawEvent × RngStream
  | 0, _, _, _, s => ([], s)
  | n + 1, width, height, color, s =>
    let x1 := 5
    let y1 := get_next x1 (height / 2) s
    let y2 := get_next 5 (height - 5) y1.2
    let cx := get_next (width / 6) (width / 4 * 3) y2.2
    let cy := get_next x1 (height - 5) cx.2
    let cx2 := get_next (width / 12) (width / 12 * 3) cy.2
    let cy2 := get_next x1 (height - 5) cx2.2
    let rest := draw_interference_line n width height color cy2.2
    (DrawEvent.line x1 y1.1 (width - 5) y2.1 cx.1 cy.1 cx2.1 cy2.1 color :: rest.1, rest.2)

/-- Rust `draw_interference_ellipse(num, image, color)`: `num` filled ellipses
with `w = 10 + rand_num(10)`, `x = rand_num(width - 25)`,
`y = rand_num(height - 15)`. -/
def draw_interference_ellipse : Nat → Nat → Nat → Rgba → RngStream → List DrawEvent × RngStream
  | 0, _, _, _, s => ([], s)
  | n + 1, width, height, color, s =>
    let w := rand_num 10 s
    let x := rand_num (width - 25) w.2
    let y := rand_num (height - 15) x.2
    let rest := draw_interference_ellipse n width height color y.2
    (DrawEvent.ellipse x.1 y.1 (10 + w.1) color :: rest.1, rest.2)

/-- The circle-enabled background loop of `cyclic_write_character`: for each
character position (one entry of `line_colors`), draw one bezier stroke when
`lines` is set, then one ellipse, both in that position's cycled color. -/
def draw_bg : List Rgba → Nat → Nat → Bool → RngStream → List DrawEvent × RngStream
  | [], _, _, _, s => ([], s)
  | col :: rest, width, height, lines, s =>
    let l := if lines then draw_interference_line 1 width height col s else ([], s)
    let e := draw_interference_ellipse 1 width height col l.2
    let tail := draw_bg rest width height lines e.2
    (l.1 ++ e.1 ++ tail.1, tail.2)

/-- The inner repetition loop `for j in 0..count` of the glyph renderer:
each pass draws one `offset = j * rand_num(2)` and one text call at
`x = 10 + offset + i * c` with horizontal scale `xscale + offset`. -/
def draw_reps (i : Nat) (ch : Char) (color : Rgba) (c y xscale yscale fontIdx : Nat) :
    Nat → Nat → RngStream → List DrawEvent × RngStream
  | _, 0, s => ([], s)
  | j, n + 1, s =>
    let r := rand_num 2 s
    let offset := j * r.1
    let ev := DrawEvent.text (10 + offset + i * c) y (xscale + offset) yscale fontIdx ch color
    let rest := draw_reps i ch color c y xscale yscale fontIdx (j + 1) n r.2
    (ev :: rest.1, rest.2)

/-- One character of the glyph-rendering loop: draw the glyph
`rand_num(3) + 1` times with per-repetition offsets. -/
def draw_one_char (i : Nat) (ch : Char) (color : Rgba) (c y xscale yscale fontIdx : Nat)
    (s : RngStream) : List DrawEvent × RngStream :=
  let cnt := rand_num 3 s
  draw_reps i ch color c y xscale yscale fontIdx 0 (cnt.1 + 1) cnt.2

/-- The `for (i, ch) in captcha.chars().enumerate()` text loop; `colors` has
the same length as the string at the call site. -/
def draw_text : List Char → List Rgba → Nat → Nat → Nat → Nat → Nat → Nat → RngStream →
    List DrawEvent × RngStream
  | ch :: chs, col :: cols, i, c, y, xscale, yscale, fontIdx, s =>
    let evs := draw_one_char i ch col c y xscale yscale fontIdx s
    let rest := draw_text chs cols (i + 1) c y xscale yscale fontIdx evs.2
    (evs.1 ++ rest.1, rest.2)
  | _, _, _, _, _, _, _, _, s => ([], s)

/-- Output image container format (`image::ImageFormat` variants used here). -/
inductive ImageFormat where
  | png
  | jpeg
  | webP
deriving DecidableEq

/-- Rust `CaptchaBuilder` configuration struct. -/
structure CaptchaBuilder where
  length : Nat
  width : Nat
  height : Nat
  complexity : Nat
  line : Bool
  noise : Bool
  circle : Bool
  format : ImageFormat
deriving DecidableEq

/-- `CaptchaBuilder::default()` / `new()`. -/
def CaptchaBuilder.new : CaptchaBuilder :=
  { length := 4, width := 220, height := 70, complexity := 5,
    line := true, noise := false, circle := true, format := ImageFormat.png }

/-- Setter `CaptchaBuilder::length`. -/
def CaptchaBuilder.set_length (b : CaptchaBuilder) (length : Nat) : CaptchaBuilder :=
  { b with length := length }

/-- Setter `CaptchaBuilder::line`. -/
def CaptchaBuilder.set_line (b : CaptchaBuilder) (line : Bool) : CaptchaBuilder :=
  { b with line := line }

/-- Setter `CaptchaBuilder::noise`. -/
def CaptchaBuilder.set_noise (b : CaptchaBuilder) (noise : Bool) : CaptchaBuilder :=
  { b with noise := noise }

/-- Setter `CaptchaBuilder::circle`. -/
def CaptchaBuilder.set_circle (b : CaptchaBuilder) (circle : Bool) : CaptchaBuilder :=
  { b with circle := circle }

/-- Setter `CaptchaBuilder::format`: recognized strings map to their format,
anything else falls back to PNG. -/
def CaptchaBuilder.set_format (b : CaptchaBuilder) (format : String) : CaptchaBuilder :=
  { b with format :=
      match format with
      | "png" => ImageFormat.png
      | "jpg" | "jpeg" => ImageFormat.jpeg
      | "webp" => ImageFormat.webP
      | _ => ImageFormat.png }

/-- Setter `CaptchaBuilder::complexity`: `complexity.clamp(1, 10)`. -/
def CaptchaBuilder.set_complexity (b : CaptchaBuilder) (complexity : Nat) : CaptchaBuilder :=
  { b with complexity := min (max complexity 1) 10 }

/-- Rust `cyclic_write_character`. The first statement divides
`width - 20` by the string length, which panics (division by zero) on an
empty string: that is the `none` case. Otherwise it returns the list of
drawing calls issued on the canvas and the advanced stream. -/
def cyclic_write_character (cfg : CaptchaBuilder) (captcha : List Char) (lines : Bool)
    (s : RngStream) : Option (List DrawEvent × RngStream) :=
  if captcha.length = 0 then none
  else
    let c := (cfg.width - 20) / captcha.length
    let y := cfg.height / 3 - 15
    let h := cfg.height
    let scale :=
      match captcha.length with
      | 1 | 2 | 3 => SCALE_LG
      | 4 | 5 => SCALE_MD
      | _ => SCALE_SM
    let colors := get_colors captcha.length s
    let line_colors := get_colors captcha.length colors.2
    let xj := rand_num (scale * 2 / 10) line_colors.2
    let xscale := scale - xj.1
    let yj := rand_num (h * 2 / 10) xj.2
    let yscale := h - yj.1
    let bg := if cfg.circle then draw_bg line_colors.1 cfg.width cfg.height lines yj.2
              else ([], yj.2)
    let f := rand_num 2 bg.2
    let fontIdx := match f.1 with | 0 => 0 | _ => 1
    let txt := draw_text captcha colors.1 0 c y xscale yscale fontIdx f.2
    some (bg.1 ++ txt.1, txt.2)

/-- The canvas after glyph rendering: a white `width x height` buffer on which
the recorded drawing calls were made. -/
structure DrawnCanvas where
  width : Nat
  height : Nat
  events : List DrawEvent
deriving DecidableEq

/-- The canvas handed to the encoder: either the drawn canvas unmodified, or
the drawn canvas with `gaussian_noise_mut(mean, stddev, seed)` applied. -/
inductive FinalCanvas where
  | plain (d : DrawnCanvas)
  | noised (d : DrawnCanvas) (mean stddev seed : Nat)
deriving DecidableEq

/-- Container magic headers (PNG signature, JPEG SOI, RIFF for WebP). -/
def magicHeader : ImageFormat → List Nat
  | ImageFormat.png => [137, 80, 78, 71, 13, 10, 26, 10]
  | ImageFormat.jpeg => [255, 216, 255]
  | ImageFormat.webP => [82, 73, 70, 70]

/-- Abstract payload of the external image crate encoder; only the magic
header preceding it is specified behavior the program relies on. -/
def encodeBody : FinalCanvas → List Nat
  | FinalCanvas.plain d => [d.width, d.height, d.events.length, 0]
  | FinalCanvas.noised d m sd sd2 => [d.width, d.height, d.events.length, 1, m, sd, sd2]

/-- Model of `ImageBuffer::write_to(..., fmt)` from the external image crate:
bytes of the chosen container, beginning with its magic header. -/
def encode (fmt : ImageFormat) (img : FinalCanvas) : List Nat :=
  magicHeader fmt ++ encodeBody img

/-- Result pair returned by `build`. -/
structure Captcha where
  text : List Char
  image : List Nat
deriving DecidableEq

/-- The text and drawing stages of `CaptchaBuilder::build`: generate the
string, allocate the white canvas, run `cyclic_write_character` with the
line flag. -/
def draw_stage (cfg : CaptchaBuilder) (s : RngStream) :
    Option (List Char × DrawnCanvas × RngStream) :=
  let p := rand_captcha cfg.length s
  match cyclic_write_character cfg p.1 cfg.line p.2 with
  | none => none
  | some q => some (p.1, ⟨cfg.width, cfg.height, q.1⟩, q.2)

/-- The noise stage of `build`: when `self.noise` is set, apply
`gaussian_noise_mut` with mean `complexity - 1`, stddev
`10 * complexity - 10` and seed `5 * complexity - 5`; otherwise the canvas
passes through unmodified. -/
def noise_stage (cfg : CaptchaBuilder) (d : DrawnCanvas) : FinalCanvas :=
  if cfg.noise then
    FinalCanvas.noised d (cfg.complexity - 1) (10 * cfg.complexity - 10) (5 * cfg.complexity - 5)
  else
    FinalCanvas.plain d

/-- Rust `CaptchaBuilder::build`. Note the source encodes with the literal
`image::ImageFormat::Png`, not with `self.format`. -/
def build (cfg : CaptchaBuilder) (s : RngStream) : Option Captcha :=
  match draw_stage cfg s with
  | none => none
  | some t => some { text := t.1, image := encode ImageFormat.png (noise_stage cfg t.2.1) }

/-- A getD lookup with an in-range index returns an element of the list. -/
theorem getD_mem_of_lt {α : Type} (l : List α) (n : Nat) (d : α) (h : n < l.length) :
    l.getD n d ∈ l := by
  induction l generalizing n with
  | nil => simp at h
  | cons x xs ih =>
    cases n with
    | zero => simp [List.getD]
    | succ k =>
      simp only [List.getD_cons_succ]
      exact List.mem_cons_of_mem x (ih k (by simpa using h))

/-- A draw from `rand_num len` lies in the inclusive range `[0, len]`. -/
theorem rand_num_le (n : Nat) (s : RngStream) : (rand_num n s).1 ≤ n := by
  simp only [rand_num]
  exact Nat.lt_succ_iff.mp (Nat.mod_lt _ (Nat.succ_pos n))

theorem BASIC_CHAR_length : BASIC_CHAR.length = 54 := rfl

theorem COLORS_length : COLORS.length = 14 := rfl

/-- The generated string has exactly the requested length. -/
theorem rand_captcha_length (n : Nat) : ∀ s, (rand_captcha n s).1.length = n := by
  induction n with
  | zero => intro s; rfl
  | succ k ih => intro s; simp [rand_captcha, ih]

/-- Every generated character comes from the fixed alphabet. -/
theorem rand_captcha_mem (n : Nat) : ∀ s, ∀ ch ∈ (rand_captcha n s).1, ch ∈ BASIC_CHAR := by
  induction n with
  | zero => intro s ch h; simp [rand_captcha] at h
  | succ k ih =>
    intro s ch h
    simp only [rand_captcha, List.mem_cons] at h
    rcases h with h | h
    · subst h
      refine getD_mem_of_lt _ _ _ ?_
      have h1 := rand_num_le (BASIC_CHAR.length - 1) s
      have h2 : BASIC_CHAR.length = 54 := rfl
      omega
    · exact ih _ ch h

theorem color_loop_length (rnd : Nat) : ∀ n i, (color_loop rnd i n).length = n := by
  intro n
  induction n with
  | zero => intro i; rfl
  | succ k ih => intro i; simp [color_loop, ih]

theorem color_loop_getD (rnd : Nat) :
    ∀ n i k, k < n → (color_loop rnd i n).getD k ⟨0, 0, 0, 0⟩ =
      COLORS.getD ((rnd + (i + k)) % COLORS.length) ⟨0, 0, 0, 0⟩ := by
  intro n
  induction n with
  | zero => intro i k hk; omega
  | succ m ih =>
    intro i k hk
    cases k with
    | zero => simp [color_loop]
    | succ k2 =>
      have h := ih (i + 1) k2 (by omega)
      have h2 : i + 1 + k2 = i + (k2 + 1) := by omega
      rw [h2] at h
      simpa [color_loop] using h

theorem color_loop_mem (rnd : Nat) :
    ∀ n i, ∀ col ∈ color_loop rnd i n, col ∈ COLORS := by
  intro n
  induction n with
  | zero => intro i col h; simp [color_loop] at h
  | succ m ih =>
    intro i col h
    simp only [color_loop, List.mem_cons] at h
    rcases h with h | h
    · subst h
      exact getD_mem_of_lt _ _ _ (Nat.mod_lt _ (by decide))
    · exact ih _ col h

theorem get_colors_length (n : Nat) (s : RngStream) : (get_colors n s).1.length = n := by
  simp [get_colors, color_loop_length]

/-- Recognizer for ellipse drawing calls. -/
def DrawEvent.isEllipse : DrawEvent → Bool
  | DrawEvent.ellipse .. => true
  | _ => false

/-- Recognizer for bezier stroke drawing calls. -/
def DrawEvent.isBezier : DrawEvent → Bool
  | DrawEvent.line .. => true
  | _ => false

/-- Number of interference ellipses among the recorded drawing calls. -/
def countEllipses (l : List DrawEvent) : Nat := l.countP DrawEvent.isEllipse

/-- Number of interference bezier strokes among the recorded drawing calls. -/
def countBeziers (l : List DrawEvent) : Nat := l.countP DrawEvent.isBezier

theorem countEllipses_nil : countEllipses [] = 0 := rfl

theorem countBeziers_nil : countBeziers [] = 0 := rfl

theorem countEllipses_cons (e : DrawEvent) (l : List DrawEvent) :
    countEllipses (e :: l) = countEllipses l + (if e.isEllipse then 1 else 0) :=
  List.countP_cons _ _ _

theorem countBeziers_cons (e : DrawEvent) (l : List DrawEvent) :
    countBeziers (e :: l) = countBeziers l + (if e.isBezier then 1 else 0) :=
  List.countP_cons _ _ _

theorem countEllipses_append (l1 l2 : List DrawEvent) :
    countEllipses (l1 ++ l2) = countEllipses l1 + countEllipses l2 :=
  List.countP_append _ _ _

theorem countBeziers_append (l1 l2 : List DrawEvent) :
    countBeziers (l1 ++ l2) = countBeziers l1 + countBeziers l2 :=
  List.countP_append _ _ _

theorem ellipse_countE (w h : Nat) (col : Rgba) :
    ∀ n s, countEllipses (draw_interference_ellipse n w h col s).1 = n := by
  intro n
  induction n with
  | zero => intro s; rfl
  | succ k ih =>
    intro s
    simp [draw_interference_ellipse, countEllipses_cons, ih, DrawEvent.isEllipse]

theorem ellipse_countB (w h : Nat) (col : Rgba) :
    ∀ n s, countBeziers (draw_interference_ellipse n w h col s).1 = 0 := by
  intro n
  induction n with
  | zero => intro s; rfl
  | succ k ih =>
    intro s
    simp [draw_interference_ellipse, countBeziers_cons, ih, DrawEvent.isBezier]

theorem bezier_countB (w h : Nat) (col : Rgba) :
    ∀ n s, countBeziers (draw_interference_line n w h col s).1 = n := by
  intro n
  induction n with
  | zero => intro s; rfl
  | succ k ih =>
    intro s
    simp [draw_interference_line, countBeziers_cons, ih, DrawEvent.isBezier]

theorem bezier_countE (w h : Nat) (col : Rgba) :
    ∀ n s, countEllipses (draw_interference_line n w h col s).1 = 0 := by
  intro n
  induction n with
  | zero => intro s; rfl
  | succ k ih =>
    intro s
    simp [draw_interference_line, countEllipses_cons, ih, DrawEvent.isEllipse]

theorem draw_bg_countE (w h : Nat) (lines : Bool) :
    ∀ (cols : List Rgba) (s : RngStream),
      countEllipses (draw_bg cols w h lines s).1 = cols.length := by
  intro cols
  induction cols with
  | nil => intro s; rfl
  | cons col rest ih =>
    intro s
    cases lines with
    | false =>
      simp [draw_bg, countEllipses_append, countEllipses_nil, ellipse_countE, ih]
      omega
    | true =>
      simp [draw_bg, countEllipses_append, bezier_countE, ellipse_countE, ih]
      omega

theorem draw_bg_countB (w h : Nat) (lines : Bool) :
    ∀ (cols : List Rgba) (s : RngStream),
      countBeziers (draw_bg cols w h lines s).1 = if lines then cols.length else 0 := by
  intro cols
  induction cols with
  | nil => intro s; cases lines <;> rfl
  | cons col rest ih =>
    intro s
    cases lines with
    | false =>
      simp [draw_bg, countBeziers_append, countBeziers_nil, ellipse_countB, ih]
    | true =>
      simp [draw_bg, countBeziers_append, bezier_countB, ellipse_countB, ih]
      omega

theorem draw_reps_countE (i : Nat) (ch : Char) (col : Rgba) (c y xs ys f : Nat) :
    ∀ n j s, countEllipses (draw_reps i ch col c y xs ys f j n s).1 = 0 := by
  intro n
  induction n with
  | zero => intro j s; rfl
  | succ m ih =>
    intro j s
    simp [draw_reps, countEllipses_cons, ih, DrawEvent.isEllipse]

theorem draw_reps_countB (i : Nat) (ch : Char) (col : Rgba) (c y xs ys f : Nat) :
    ∀ n j s, countBeziers (draw_reps i ch col c y xs ys f j n s).1 = 0 := by
  intro n
  induction n with
  | zero => intro j s; rfl
  | succ m ih =>
    intro j s
    simp [draw_reps, countBeziers_cons, ih, DrawEvent.isBezier]

theorem draw_one_char_countE (i : Nat) (ch : Char) (col : Rgba) (c y xs ys f : Nat)
    (s : RngStream) : countEllipses (draw_one_char i ch col c y xs ys f s).1 = 0 := by
  simp [draw_one_char, draw_reps_countE]

theorem draw_one_char_countB (i : Nat) (ch : Char) (col : Rgba) (c y xs ys f : Nat)
    (s : RngStream) : countBeziers (draw_one_char i ch col c y xs ys f s).1 = 0 := by
  simp [draw_one_char, draw_reps_countB]

theorem draw_text_countE :
    ∀ (chars : List Char) (cols : List Rgba) (i c y xs ys f : Nat) (s : RngStream),
      countEllipses (draw_text chars cols i c y xs ys f s).1 = 0 := by
  intro chars
  induction chars with
  | nil => intro cols i c y xs ys f s; cases cols <;> rfl
  | cons ch chs ih =>
    intro cols i c y xs ys f s
    cases cols with
    | nil => rfl
    | cons col cols2 =>
      simp [draw_text, countEllipses_append, draw_one_char_countE, ih]

theorem draw_text_countB :
    ∀ (chars : List Char) (cols : List Rgba) (i c y xs ys f : Nat) (s : RngStream),
      countBeziers (draw_text chars cols i c y xs ys f s).1 = 0 := by
  intro chars
  induction chars with
  | nil => intro cols i c y xs ys f s; cases cols <;> rfl
  | cons ch chs ih =>
    intro cols i c y xs ys f s
    cases cols with
    | nil => rfl
    | cons col cols2 =>
      simp [draw_text, countBeziers_append, draw_one_char_countB, ih]

/-- On a nonempty string, `cyclic_write_character` succeeds and draws the
interference shapes required by its circle/line flags: one ellipse per
character when the circle flag is set (none otherwise), and one bezier
stroke per character exactly when both flags are set. -/
theorem cyclic_counts (cfg : CaptchaBuilder) (chars : List Char) (lines : Bool)
    (s : RngStream) (hne : chars.length ≠ 0) :
    ∃ evs s2, cyclic_write_character cfg chars lines s = some (evs, s2) ∧
      countEllipses evs = (if cfg.circle then chars.length else 0) ∧
      countBeziers evs = (if cfg.circle && lines then chars.length else 0) := by
  unfold cyclic_write_character
  rw [if_neg hne]
  cases hcirc : cfg.circle with
  | false =>
    refine ⟨_, _, rfl, ?_, ?_⟩ <;>
      simp [countEllipses_append, countBeziers_append, draw_text_countE, draw_text_countB,
        countEllipses_nil, countBeziers_nil]
  | true =>
    refine ⟨_, _, rfl, ?_, ?_⟩ <;>
      simp [countEllipses_append, countBeziers_append, draw_text_countE, draw_text_countB,
        draw_bg_countE, draw_bg_countB, get_colors_length]

/-- On a configuration with nonzero length, `build` succeeds, its text is the
generated string, and its bytes encode the noise-staged canvas as PNG. -/
theorem build_spec (cfg : CaptchaBuilder) (s : RngStream) (hne : cfg.length ≠ 0) :
    ∃ d s2, draw_stage cfg s = some ((rand_captcha cfg.length s).1, d, s2) ∧
      build cfg s = some ⟨(rand_captcha cfg.length s).1,
        encode ImageFormat.png (noise_stage cfg d)⟩ := by
  have h1 : (rand_captcha cfg.length s).1.length ≠ 0 := by
    rw [rand_captcha_length]; exact hne
  obtain ⟨evs, s2, hq, _, _⟩ :=
    cyclic_counts cfg (rand_captcha cfg.length s).1 cfg.line (rand_captcha cfg.length s).2 h1
  refine ⟨⟨cfg.width, cfg.height, evs⟩, s2, ?_, ?_⟩
  · simp [draw_stage, hq]
  · simp [build, draw_stage, hq]

theorem draw_reps_length (i : Nat) (ch : Char) (col : Rgba) (c y xs ys f : Nat) :
    ∀ n j s, (draw_reps i ch col c y xs ys f j n s).1.length = n := by
  intro n
  induction n with
  | zero => intro j s; rfl
  | succ m ih => intro j s; simp [draw_reps, ih]

/-- Each pass of the repetition loop draws the glyph at
`x = 10 + offset + i * c` with horizontal scale `xscale + offset`, where
`offset = j * r` for a fresh draw `r` in the inclusive range `[0, 2]`. -/
theorem draw_reps_events (i : Nat) (ch : Char) (col : Rgba) (c y xs ys f : Nat) :
    ∀ n j s k, k < n →
      ∃ r, r ≤ 2 ∧ (draw_reps i ch col c y xs ys f j n s).1[k]? =
        some (DrawEvent.text (10 + (j + k) * r + i * c) y (xs + (j + k) * r) ys f ch col) := by
  intro n
  induction n with
  | zero => intro j s k hk; omega
  | succ m ih =>
    intro j s k hk
    cases k with
    | zero =>
      refine ⟨(rand_num 2 s).1, rand_num_le 2 s, ?_⟩
      simp [draw_reps]
    | succ k2 =>
      obtain ⟨r, hr, he⟩ := ih (j + 1) (rand_num 2 s).2 k2 (by omega)
      refine ⟨r, hr, ?_⟩
      have h2 : j + 1 + k2 = j + (k2 + 1) := by omega
      rw [h2] at he
      simpa [draw_reps] using he

/-- All-zero entropy stream used for concrete evaluations. -/
def zeroStream : RngStream := fun _ => 0

/-- Default configuration with its format field set from the string "webp". -/
def cfgWebp : CaptchaBuilder := CaptchaBuilder.new.set_format "webp"

/-- Default configuration with its length set to zero. -/
def cfgLenZero : CaptchaBuilder := CaptchaBuilder.new.set_length 0

/-- C1: the claim says the bytes returned by build match the configured
container format. The code stores the parsed format but `build` encodes with
the literal `ImageFormat::Png`: even with the format field set from "webp",
the output bytes begin with the PNG magic header. -/
theorem build_ignores_format_field :
    cfgWebp.format = ImageFormat.webP ∧
    ((build cfgWebp zeroStream).map fun cap => cap.image.take 8) =
      some (magicHeader ImageFormat.png) :=
  ⟨rfl, rfl⟩

/-- C2: on every configuration with nonzero length, the text returned by
build has exactly the configured length and draws all its characters from
the fixed 54-character alphabet `BASIC_CHAR`. -/
theorem build_text_length_and_alphabet (cfg : CaptchaBuilder) (s : RngStream)
    (hne : cfg.length ≠ 0) :
    ∃ cap, build cfg s = some cap ∧ cap.text.length = cfg.length ∧
      ∀ ch ∈ cap.text, ch ∈ BASIC_CHAR := by
  obtain ⟨d, s2, _, hb⟩ := build_spec cfg s hne
  exact ⟨_, hb, rand_captcha_length _ _, rand_captcha_mem _ _⟩

theorem build_text_length_and_alphabet_witness :
    ∃ cap, build CaptchaBuilder.new zeroStream = some cap ∧
      cap.text.length = CaptchaBuilder.new.length ∧ ∀ ch ∈ cap.text, ch ∈ BASIC_CHAR :=
  build_text_length_and_alphabet CaptchaBuilder.new zeroStream (by decide)

/-- C3: the complexity setter stores `clamp(input, 1, 10)`; in particular
input 0 stores 1, input 11 stores 10 and input 5 stores 5, always returning
an updated configuration rather than rejecting the value. -/
theorem complexity_setter_clamps (cfg : CaptchaBuilder) (c : Nat) :
    (cfg.set_complexity c).complexity = min (max c 1) 10 ∧
    (cfg.set_complexity 0).complexity = 1 ∧
    (cfg.set_complexity 11).complexity = 10 ∧
    (cfg.set_complexity 5).complexity = 5 :=
  ⟨rfl, rfl, rfl, rfl⟩

/-- C4 counterexample: with length 0, build does not return an empty-text
captcha; it fails (in the source, `cyclic_write_character` divides the
canvas width by the string length, a division by zero). -/
theorem build_len_zero_cex : build cfgLenZero zeroStream = none := rfl

/-- C4 amended: calling build with length = 0 is not valid: the column-width
computation in `cyclic_write_character` divides by the string length, so the
call panics (modelled as `none`) instead of returning an empty text string
with an encoded canvas. -/
theorem build_len_zero_fails (cfg : CaptchaBuilder) (s : RngStream) (h0 : cfg.length = 0) :
    build cfg s = none := by
  simp [build, draw_stage, cyclic_write_character, h0, rand_captcha]

theorem build_len_zero_fails_witness : build cfgLenZero zeroStream = none :=
  build_len_zero_fails cfgLenZero zeroStream rfl

/-- C5: with the circle flag enabled, exactly one ellipse is drawn per
character position, and one bezier stroke per character position exactly
when the line flag is also set; with the circle flag disabled no
interference shape is drawn at all; and toggling the line flag alone never
changes the number of ellipses drawn. -/
theorem interference_shape_policy (cfg : CaptchaBuilder) (chars : List Char)
    (s : RngStream) (hne : chars.length ≠ 0) :
    ∃ evs s2, cyclic_write_character cfg chars cfg.line s = some (evs, s2) ∧
      countEllipses evs = (if cfg.circle then chars.length else 0) ∧
      countBeziers evs = (if cfg.circle && cfg.line then chars.length else 0) ∧
      ∀ (b : Bool) (s3 : RngStream), ∃ evs2 t2,
        cyclic_write_character (cfg.set_line b) chars (cfg.set_line b).line s3 =
          some (evs2, t2) ∧ countEllipses evs2 = countEllipses evs := by
  obtain ⟨evs, s2, h1, h2, h3⟩ := cyclic_counts cfg chars cfg.line s hne
  refine ⟨evs, s2, h1, h2, h3, ?_⟩
  intro b s3
  obtain ⟨evs2, t2, g1, g2, _⟩ := cyclic_counts (cfg.set_line b) chars (cfg.set_line b).line s3 hne
  exact ⟨evs2, t2, g1, by rw [g2, h2]; rfl⟩

theorem interference_shape_policy_witness :
    ∃ evs s2, cyclic_write_character CaptchaBuilder.new ['2'] CaptchaBuilder.new.line zeroStream =
        some (evs, s2) ∧
      countEllipses evs = (if CaptchaBuilder.new.circle then (['2'] : List Char).length else 0) ∧
      countBeziers evs =
        (if CaptchaBuilder.new.circle && CaptchaBuilder.new.line
          then (['2'] : List Char).length else 0) ∧
      ∀ (b : Bool) (s3 : RngStream), ∃ evs2 t2,
        cyclic_write_character (CaptchaBuilder.new.set_line b) ['2']
            (CaptchaBuilder.new.set_line b).line s3 = some (evs2, t2) ∧
          countEllipses evs2 = countEllipses evs :=
  interference_shape_policy CaptchaBuilder.new ['2'] zeroStream (by decide)

/-- C9: build hands the encoder the drawn canvas unmodified when the noise
flag is off, and applies Gaussian noise with mean `complexity - 1`, stddev
`10 * complexity - 10` and seed `5 * complexity - 5` when it is on. -/
theorem noise_stage_policy (cfg : CaptchaBuilder) (s : RngStream) (hne : cfg.length ≠ 0) :
    ∃ t d s2, draw_stage cfg s = some (t, d, s2) ∧
      (cfg.noise = false →
        build cfg s = some ⟨t, encode ImageFormat.png (FinalCanvas.plain d)⟩) ∧
      (cfg.noise = true →
        build cfg s = some ⟨t, encode ImageFormat.png
          (FinalCanvas.noised d (cfg.complexity - 1) (10 * cfg.complexity - 10)
            (5 * cfg.complexity - 5))⟩) := by
  obtain ⟨d, s2, hd, hb⟩ := build_spec cfg s hne
  refine ⟨_, d, s2, hd, ?_, ?_⟩
  · intro hn; rw [hb]; simp [noise_stage, hn]
  · intro hn; rw [hb]; simp [noise_stage, hn]

theorem noise_stage_policy_witness :
    ∃ t d s2, draw_stage CaptchaBuilder.new zeroStream = some (t, d, s2) ∧
      (CaptchaBuilder.new.noise = false →
        build CaptchaBuilder.new zeroStream =
          some ⟨t, encode ImageFormat.png (FinalCanvas.plain d)⟩) ∧
      (CaptchaBuilder.new.noise = true →
        build CaptchaBuilder.new zeroStream = some ⟨t, encode ImageFormat.png
          (FinalCanvas.noised d (CaptchaBuilder.new.complexity - 1)
            (10 * CaptchaBuilder.new.complexity - 10)
            (5 * CaptchaBuilder.new.complexity - 5))⟩) :=
  noise_stage_policy CaptchaBuilder.new zeroStream (by decide)

/-- C10: each builder setter changes only its own named field and leaves
every other configuration field unchanged. -/
theorem setters_touch_only_own_field (cfg : CaptchaBuilder) (n : Nat) (b : Bool)
    (f : String) (c : Nat) :
    ((cfg.set_length n).width = cfg.width ∧ (cfg.set_length n).height = cfg.height ∧
      (cfg.set_length n).complexity = cfg.complexity ∧ (cfg.set_length n).line = cfg.line ∧
      (cfg.set_length n).noise = cfg.noise ∧ (cfg.set_length n).circle = cfg.circle ∧
      (cfg.set_length n).format = cfg.format) ∧
    ((cfg.set_line b).length = cfg.length ∧ (cfg.set_line b).width = cfg.width ∧
      (cfg.set_line b).height = cfg.height ∧ (cfg.set_line b).complexity = cfg.complexity ∧
      (cfg.set_line b).noise = cfg.noise ∧ (cfg.set_line b).circle = cfg.circle ∧
      (cfg.set_line b).format = cfg.format) ∧
    ((cfg.set_noise b).length = cfg.length ∧ (cfg.set_noise b).width = cfg.width ∧
      (cfg.set_noise b).height = cfg.height ∧ (cfg.set_noise b).complexity = cfg.complexity ∧
      (cfg.set_noise b).line = cfg.line ∧ (cfg.set_noise b).circle = cfg.circle ∧
      (cfg.set_noise b).format = cfg.format) ∧
    ((cfg.set_circle b).length = cfg.length ∧ (cfg.set_circle b).width = cfg.width ∧
      (cfg.set_circle b).height = cfg.height ∧ (cfg.set_circle b).complexity = cfg.complexity ∧
      (cfg.set_circle b).line = cfg.line ∧ (cfg.set_circle b).noise = cfg.noise ∧
      (cfg.set_circle b).format = cfg.format) ∧
    ((cfg.set_format f).length = cfg.length ∧ (cfg.set_format f).width = cfg.width ∧
      (cfg.set_format f).height = cfg.height ∧ (cfg.set_format f).complexity = cfg.complexity ∧
      (cfg.set_format f).line = cfg.line ∧ (cfg.set_format f).noise = cfg.noise ∧
      (cfg.set_format f).circle = cfg.circle) ∧
    ((cfg.set_complexity c).length = cfg.length ∧ (cfg.set_complexity c).width = cfg.width ∧
      (cfg.set_complexity c).height = cfg.height ∧ (cfg.set_complexity c).line = cfg.line ∧
      (cfg.set_complexity c).noise = cfg.noise ∧ (cfg.set_complexity c).circle = cfg.circle ∧
      (cfg.set_complexity c).format = cfg.format) :=
  ⟨⟨rfl, rfl, rfl, rfl, rfl, rfl, rfl⟩, ⟨rfl, rfl, rfl, rfl, rfl, rfl, rfl⟩,
   ⟨rfl, rfl, rfl, rfl, rfl, rfl, rfl⟩, ⟨rfl, rfl, rfl, rfl, rfl, rfl, rfl⟩,
   ⟨rfl, rfl, rfl, rfl, rfl, rfl, rfl⟩, ⟨rfl, rfl, rfl, rfl, rfl, rfl, rfl⟩⟩

/-- Black, used as a concrete color argument in evaluations. -/
def blackColor : Rgba := ⟨0, 0, 0, 0⟩

/-- Entropy stream whose every raw draw is 3. -/
def threeStream : RngStream := fun _ => 3

/-- Entropy stream whose every raw draw is 10. -/
def tenStream : RngStream := fun _ => 10

/-- C6 counterexample: the repetition count is `rand_num(3) + 1` with an
inclusive upper bound, so a raw draw of 3 makes the glyph renderer draw one
character four times, not the claimed one to three. -/
theorem glyph_repetition_cex :
    (draw_one_char 0 'A' blackColor 50 8 44 56 0 threeStream).1.length = 4 := rfl

/-- C6 amended: each character is drawn between 1 and 4 times, the count
being `rand_num(3) + 1` over the inclusive range `[0, 3]`; repetition `j`
uses `offset = j * r` with a fresh inclusive draw `r` in `[0, 2]` (so later
repetitions can shift by up to `2 * j` pixels, not at most 1), drawing at
`x = 10 + offset + i * c` with horizontal scale incremented by `offset`. -/
theorem glyph_repetition_spec (i : Nat) (ch : Char) (col : Rgba) (c y xs ys f : Nat)
    (s : RngStream) :
    1 ≤ (draw_one_char i ch col c y xs ys f s).1.length ∧
    (draw_one_char i ch col c y xs ys f s).1.length ≤ 4 ∧
    (draw_one_char i ch col c y xs ys f s).1.length = (rand_num 3 s).1 + 1 ∧
    ∀ k, k < (draw_one_char i ch col c y xs ys f s).1.length →
      ∃ r, r ≤ 2 ∧ (draw_one_char i ch col c y xs ys f s).1[k]? =
        some (DrawEvent.text (10 + k * r + i * c) y (xs + k * r) ys f ch col) := by
  have hlen : (draw_one_char i ch col c y xs ys f s).1.length = (rand_num 3 s).1 + 1 := by
    simp [draw_one_char, draw_reps_length]
  have hle := rand_num_le 3 s
  refine ⟨by omega, by omega, hlen, ?_⟩
  intro k hk
  rw [hlen] at hk
  have h := draw_reps_events i ch col c y xs ys f ((rand_num 3 s).1 + 1) 0 (rand_num 3 s).2 k hk
  simpa [draw_one_char] using h

theorem glyph_repetition_spec_witness :
    ∃ r, r ≤ 2 ∧ (draw_one_char 0 'A' blackColor 50 8 44 56 0 zeroStream).1[0]? =
      some (DrawEvent.text (10 + 0 * r + 0 * 50) 8 (44 + 0 * r) 56 0 'A' blackColor) :=
  (glyph_repetition_spec 0 'A' blackColor 50 8 44 56 0 zeroStream).2.2.2 0 (by decide)

/-- C7 counterexample: the radius is `10 + rand_num(10)` with an inclusive
upper bound, so a raw draw of 10 produces a drawn ellipse of radius 20,
outside the claimed interval `[10, 19]`. -/
theorem ellipse_radius_cex :
    (draw_interference_ellipse 1 220 70 blackColor tenStream).1 =
      [DrawEvent.ellipse 10 10 20 blackColor] := rfl

/-- C7 amended: every drawn interference ellipse has radius
`10 + rand_num(10)` in the inclusive interval `[10, 20]` and center `(x, y)`
within `[0, width - 25] x [0, height - 15]`. -/
theorem ellipse_geometry (w h : Nat) (col : Rgba) :
    ∀ n s, ∀ ev ∈ (draw_interference_ellipse n w h col s).1,
      ∃ x y r, ev = DrawEvent.ellipse x y r col ∧ 10 ≤ r ∧ r ≤ 20 ∧
        x ≤ w - 25 ∧ y ≤ h - 15 := by
  intro n
  induction n with
  | zero => intro s ev hev; simp [draw_interference_ellipse] at hev
  | succ k ih =>
    intro s ev hev
    simp only [draw_interference_ellipse, List.mem_cons] at hev
    rcases hev with hev | hev
    · subst hev
      refine ⟨_, _, _, rfl, by omega, ?_, rand_num_le _ _, rand_num_le _ _⟩
      have := rand_num_le 10 s
      omega
    · exact ih _ ev hev

theorem ellipse_geometry_witness :
    ∃ x y r, DrawEvent.ellipse 0 0 10 blackColor = DrawEvent.ellipse x y r blackColor ∧
      10 ≤ r ∧ r ≤ 20 ∧ x ≤ 220 - 25 ∧ y ≤ 70 - 15 :=
  ellipse_geometry 220 70 blackColor 1 zeroStream (DrawEvent.ellipse 0 0 10 blackColor)
    (by decide)

/-- C8: the palette cycler returns exactly `len` colors, the rotation offset
is one inclusive draw in `[0, 14]`, color `i` is `COLORS[(r + i) % 14]`,
every returned color is in the fixed 14-color palette, and two consecutive
calls (as made per build for glyph and interference colors) draw their
offsets independently and can return different sequences. -/
theorem get_colors_spec (len : Nat) (s : RngStream) :
    (get_colors len s).1.length = len ∧
    (rand_num COLORS.length s).1 ≤ 14 ∧
    (∀ i, i < len → ((get_colors len s).1).getD i ⟨0, 0, 0, 0⟩ =
      COLORS.getD (((rand_num COLORS.length s).1 + i) % 14) ⟨0, 0, 0, 0⟩) ∧
    (∀ col ∈ (get_colors len s).1, col ∈ COLORS) ∧
    (∃ t : RngStream, (get_colors 2 t).1 ≠ (get_colors 2 ((get_colors 2 t).2)).1) := by
  refine ⟨get_colors_length len s, rand_num_le _ _, ?_, ?_, ?_⟩
  · intro i hi
    have h := color_loop_getD (rand_num COLORS.length s).1 len 0 i hi
    simpa [get_colors] using h
  · intro col hcol
    exact color_loop_mem _ len 0 col (by simpa [get_colors] using hcol)
  · exact ⟨fun i => i, by decide⟩

theorem get_colors_spec_witness :
    ((get_colors 1 zeroStream).1).getD 0 ⟨0, 0, 0, 0⟩ =
      COLORS.getD (((rand_num COLORS.length zeroStream).1 + 0) % 14) ⟨0, 0, 0, 0⟩ :=
  (get_colors_spec 1 zeroStream).2.2.1 0 (by decide)

end Rucaptcha
